import Mathlib

/-!
Verification of the L51 type checker (src/part3/src/L5/L5-typecheck.ts).

The checker operates on the L5 AST with user-defined types (records grouped
into unions) and a type-case construct.  The files L5-ast.ts, TExp.ts,
TEnv.ts and shared/result.ts are repository files that are not included
under src/; the data model and the small interface functions they provide
(structural equality, the result container, the chained type environment,
parse/unparse of type expressions) are modelled from the specification,
as marked in the doc comments below.  Every function of L5-typecheck.ts
that the claims touch is translated directly from its source.
-/

namespace L51

/-- Type expressions (modelled from the spec, section 3: the TExp module is a
repository file not under src/).  Tagged variant over primitives, procedure
types, user-defined types owning a list of records, record values with named
typed fields, and unresolved name references.  A record inside a
UserDefinedTExp is stored as a RecordTE value, mirroring the source where
Record values appear both standalone and inside the records list.  TVar
models the type variables used by the primitive-operator signatures. -/
inductive TExp where
  | NumTExp
  | BoolTExp
  | StrTExp
  | VoidTExp
  | LitTExp
  | AnyTExp
  | TVar (id : String)
  | ProcTExp (paramTEs : List TExp) (returnTE : TExp)
  | UserDefinedTExp (typeName : String) (records : List TExp)
  | RecordTE (typeName : String) (fields : List (String × TExp))
  | UserDefinedNameTExp (typeName : String)

mutual

/-- Structural equality on type expressions: the model of ramda equals,
which the source uses on TExp values. -/
def teBeq : TExp → TExp → Bool
  | .NumTExp, .NumTExp => true
  | .BoolTExp, .BoolTExp => true
  | .StrTExp, .StrTExp => true
  | .VoidTExp, .VoidTExp => true
  | .LitTExp, .LitTExp => true
  | .AnyTExp, .AnyTExp => true
  | .TVar a, .TVar b => a == b
  | .ProcTExp ps r, .ProcTExp ps2 r2 => tesBeq ps ps2 && teBeq r r2
  | .UserDefinedTExp n rs, .UserDefinedTExp n2 rs2 => n == n2 && tesBeq rs rs2
  | .RecordTE n fs, .RecordTE n2 fs2 => n == n2 && fieldsBeq fs fs2
  | .UserDefinedNameTExp n, .UserDefinedNameTExp n2 => n == n2
  | _, _ => false

/-- Structural equality on lists of type expressions. -/
def tesBeq : List TExp → List TExp → Bool
  | [], [] => true
  | a :: as, b :: bs => teBeq a b && tesBeq as bs
  | _, _ => false

/-- Structural equality on field lists. -/
def fieldsBeq : List (String × TExp) → List (String × TExp) → Bool
  | [], [] => true
  | (n1, t1) :: as, (n2, t2) :: bs => n1 == n2 && teBeq t1 t2 && fieldsBeq as bs
  | _, _ => false

end

mutual

/-- teBeq decides propositional equality. -/
theorem teBeq_iff : ∀ (a b : TExp), teBeq a b = true ↔ a = b
  | .NumTExp, b => by cases b <;> simp [teBeq]
  | .BoolTExp, b => by cases b <;> simp [teBeq]
  | .StrTExp, b => by cases b <;> simp [teBeq]
  | .VoidTExp, b => by cases b <;> simp [teBeq]
  | .LitTExp, b => by cases b <;> simp [teBeq]
  | .AnyTExp, b => by cases b <;> simp [teBeq]
  | .TVar a, b => by cases b <;> simp [teBeq]
  | .ProcTExp ps r, b => by
      cases b <;> simp [teBeq, tesBeq_iff ps, teBeq_iff r]
  | .UserDefinedTExp n rs, b => by
      cases b <;> simp [teBeq, tesBeq_iff rs]
  | .RecordTE n fs, b => by
      cases b <;> simp [teBeq, fieldsBeq_iff fs]
  | .UserDefinedNameTExp n, b => by cases b <;> simp [teBeq]

/-- tesBeq decides propositional equality. -/
theorem tesBeq_iff : ∀ (as bs : List TExp), tesBeq as bs = true ↔ as = bs
  | [], [] => by simp [tesBeq]
  | [], _ :: _ => by simp [tesBeq]
  | _ :: _, [] => by simp [tesBeq]
  | a :: as, b :: bs => by
      simp [tesBeq, teBeq_iff a b, tesBeq_iff as bs]

/-- fieldsBeq decides propositional equality. -/
theorem fieldsBeq_iff : ∀ (as bs : List (String × TExp)), fieldsBeq as bs = true ↔ as = bs
  | [], [] => by simp [fieldsBeq]
  | [], _ :: _ => by simp [fieldsBeq]
  | _ :: _, [] => by simp [fieldsBeq]
  | (n1, t1) :: as, (n2, t2) :: bs => by
      simp [fieldsBeq, teBeq_iff t1 t2, fieldsBeq_iff as bs]

end

instance : DecidableEq TExp := fun a b => decidable_of_iff _ (teBeq_iff a b)

theorem teBeq_refl (a : TExp) : teBeq a a = true := (teBeq_iff a a).mpr rfl

/-- Success/failure container (modelled from the spec, section 2: the shared
result module is a repository file not under src/). -/
inductive Result (α : Type) where
  | Ok (value : α)
  | Failure (message : String)
deriving DecidableEq

/-- Constructor for a success value. -/
def makeOk {α : Type} (v : α) : Result α := Result.Ok v

/-- Constructor for a failure value. -/
def makeFailure {α : Type} (msg : String) : Result α := Result.Failure msg

/-- Bind of the result monad: short-circuits at the first failure. -/
def rbind {α β : Type} : Result α → (α → Result β) → Result β
  | Result.Ok v, f => f v
  | Result.Failure m, _ => Result.Failure m

/-- Map over a success value (mapv in the source). -/
def mapv {α β : Type} (r : Result α) (f : α → β) : Result β :=
  rbind r (fun v => makeOk (f v))

/-- Success test. -/
def isOk {α : Type} : Result α → Bool
  | Result.Ok _ => true
  | Result.Failure _ => false

/-- Failure test. -/
def isFailure {α : Type} : Result α → Bool
  | Result.Ok _ => false
  | Result.Failure _ => true

/-- Case analysis on a result (either in the source). -/
def reither {α β : Type} (r : Result α) (f : α → β) (g : String → β) : β :=
  match r with
  | Result.Ok v => f v
  | Result.Failure m => g m

/-- Map a fallible function over a list, collecting all successes or the
first failure. -/
def mapResult {α β : Type} (f : α → Result β) : List α → Result (List β)
  | [] => makeOk []
  | x :: xs => rbind (f x) (fun y => rbind (mapResult f xs) (fun ys => makeOk (y :: ys)))

/-- Zip two lists with a fallible function, stopping at the shorter list,
collecting all successes or the first failure. -/
def zipWithResult {α β γ : Type} (f : α → β → Result γ) : List α → List β → Result (List γ)
  | [], _ => makeOk []
  | _ :: _, [] => makeOk []
  | x :: xs, y :: ys => rbind (f x y) (fun z => rbind (zipWithResult f xs ys) (fun zs => makeOk (z :: zs)))

/-- Variable declaration with its type annotation. -/
structure VarDecl where
  var : String
  texp : TExp

/-- L5 abstract syntax (modelled from the spec, sections 3 and 6: L5-ast.ts
is a repository file not under src/).  A type-case clause (CaseExp) is the
triple of its record name, bound-variable declarations, and body. -/
inductive Exp where
  | NumExp (val : Int)
  | BoolExp (val : Bool)
  | StrExp (val : String)
  | PrimOp (op : String)
  | VarRef (var : String)
  | IfExp (test thenPart altPart : Exp)
  | ProcExp (args : List VarDecl) (body : List Exp) (returnTE : TExp)
  | AppExp (rator : Exp) (rands : List Exp)
  | LetExp (bindings : List (VarDecl × Exp)) (body : List Exp)
  | LetrecExp (bindings : List (VarDecl × Exp)) (body : List Exp)
  | DefineExp (var : VarDecl) (val : Exp)
  | SetExp (varE valE : Exp)
  | LitExp
  | DefineTypeExp (udType : TExp)
  | TypeCaseExp (typeName : String) (valE : Exp) (cases : List (String × List VarDecl × List Exp))

/-- Clause of a type-case expression: record name, bound variables, body. -/
abbrev CaseExp := String × List VarDecl × List Exp

/-- Record name a clause dispatches on. -/
def caseTypeName (c : CaseExp) : String := c.1

/-- Bound-variable declarations of a clause. -/
def caseVarDecls (c : CaseExp) : List VarDecl := c.2.1

/-- Body of a clause. -/
def caseBody (c : CaseExp) : List Exp := c.2.2

/-- Program: ordered sequence of top-level expressions. -/
structure Program where
  exps : List Exp

/-- Parsed value: an expression or a whole program, as dispatched on by
typeofExp in the source. -/
inductive Parsed where
  | E (e : Exp)
  | P (p : Program)

/-- Predicate isUserDefinedTExp of the TExp module. -/
def isUserDefinedTExp : TExp → Bool
  | .UserDefinedTExp _ _ => true
  | _ => false

/-- Predicate isRecord of the TExp module. -/
def isRecord : TExp → Bool
  | .RecordTE _ _ => true
  | _ => false

/-- Predicate isUserDefinedNameTExp of the TExp module. -/
def isUserDefinedNameTExp : TExp → Bool
  | .UserDefinedNameTExp _ => true
  | _ => false

/-- Predicate isAnyTExp of the TExp module. -/
def isAnyTExp : TExp → Bool
  | .AnyTExp => true
  | _ => false

/-- Predicate isProcTExp of the TExp module. -/
def isProcTExp : TExp → Bool
  | .ProcTExp _ _ => true
  | _ => false

/-- Accessor for the typeName property shared by user-defined types, records
and name references (empty string on the other variants, on which the source
never reads it). -/
def typeNameOf : TExp → String
  | .UserDefinedTExp n _ => n
  | .RecordTE n _ => n
  | .UserDefinedNameTExp n => n
  | _ => ""

/-- Accessor for the records list of a UserDefinedTExp (empty on the other
variants, on which the source never reads it). -/
def udRecords : TExp → List TExp
  | .UserDefinedTExp _ rs => rs
  | _ => []

/-- Accessor for the fields list of a RecordTE (empty on the other variants,
on which the source never reads it). -/
def recFields : TExp → List (String × TExp)
  | .RecordTE _ fs => fs
  | _ => []

/-- Iteration worker of getTypeDefinitions, translated from the inner iter. -/
def getTypeDefinitionsIter : Exp → List Exp → List TExp
  | .DefineTypeExp ud, [] => [ud]
  | _, [] => []
  | .DefineTypeExp ud, t :: ts => ud :: getTypeDefinitionsIter t ts
  | _, t :: ts => getTypeDefinitionsIter t ts

/-- All define-type declarations of a program, in encounter order
(getTypeDefinitions in the source). -/
def getTypeDefinitions (p : Program) : List TExp :=
  match p.exps with
  | [] => []
  | h :: t => getTypeDefinitionsIter h t

/-- Iteration worker of getDefinitions, translated from the inner iter. -/
def getDefinitionsIter : Exp → List Exp → List (VarDecl × Exp)
  | .DefineExp v e, [] => [(v, e)]
  | _, [] => []
  | .DefineExp v e, t :: ts => (v, e) :: getDefinitionsIter t ts
  | _, t :: ts => getDefinitionsIter t ts

/-- All top-level variable defines of a program, in encounter order
(getDefinitions in the source; a DefineExp is represented by its VarDecl
and value). -/
def getDefinitions (p : Program) : List (VarDecl × Exp) :=
  match p.exps with
  | [] => []
  | h :: t => getDefinitionsIter h t

/-- Flattened list of all records across all type definitions. -/
def getRecords (p : Program) : List TExp :=
  ((getTypeDefinitions p).map udRecords).flatten

/-- Linear scan for the first item whose typeName matches; the source is
generic over objects with a typeName property, modelled by the projection
nameOf. -/
def getItemByName {α : Type} (nameOf : α → String) (typeName : String) : List α → Result α
  | [] => makeFailure (typeName ++ " not found")
  | x :: xs =>
    if nameOf x = typeName then makeOk x else getItemByName nameOf typeName xs

/-- Lookup of a user-defined type by name. -/
def getUserDefinedTypeByName (typeName : String) (p : Program) : Result TExp :=
  getItemByName typeNameOf typeName (getTypeDefinitions p)

/-- Lookup of a record by name. -/
def getRecordByName (typeName : String) (p : Program) : Result TExp :=
  getItemByName typeNameOf typeName (getRecords p)

/-- User-defined types that contain a record of the given name as a case. -/
def getRecordParents (typeName : String) (p : Program) : List TExp :=
  (getTypeDefinitions p).filter
    (fun ud => ((udRecords ud).map typeNameOf).contains typeName)

/-- Lookup of the record or user-defined type named typeName: the UD type
lookup is tried first, then the record lookup. -/
def getTypeByName (typeName : String) (p : Program) : Result TExp :=
  match getUserDefinedTypeByName typeName p with
  | Result.Failure _ => getRecordByName typeName p
  | Result.Ok ud => Result.Ok ud

/-- Tag string of a type expression (the tag property of the TExp module,
modelled from the spec; only distinctness per variant matters). -/
def typeTag : TExp → String
  | .NumTExp => "NumTExp"
  | .BoolTExp => "BoolTExp"
  | .StrTExp => "StrTExp"
  | .VoidTExp => "VoidTExp"
  | .LitTExp => "LitTExp"
  | .AnyTExp => "AnyTExp"
  | .TVar _ => "TVar"
  | .ProcTExp _ _ => "ProcTExp"
  | .UserDefinedTExp _ _ => "UserDefinedTExp"
  | .RecordTE _ _ => "Record"
  | .UserDefinedNameTExp _ => "UserDefinedNameTExp"

/-- Modelled from the spec: unparseTExp of the TExp module renders a type
expression to text.  Only its success/failure structure matters to the
claims, and it always succeeds on checker-produced values; the rendering
itself is abbreviated to the variant tag and name. -/
def unparseTExp (te : TExp) : Result String :=
  makeOk (typeTag te ++ " " ++ typeNameOf te)

/-- Tag string of an expression variant, used by the modelled unparse. -/
def expTag : Exp → String
  | .NumExp _ => "NumExp"
  | .BoolExp _ => "BoolExp"
  | .StrExp _ => "StrExp"
  | .PrimOp _ => "PrimOp"
  | .VarRef _ => "VarRef"
  | .IfExp _ _ _ => "IfExp"
  | .ProcExp _ _ _ => "ProcExp"
  | .AppExp _ _ => "AppExp"
  | .LetExp _ _ => "LetExp"
  | .LetrecExp _ _ => "LetrecExp"
  | .DefineExp _ _ => "DefineExp"
  | .SetExp _ _ => "SetExp"
  | .LitExp => "LitExp"
  | .DefineTypeExp _ => "DefineTypeExp"
  | .TypeCaseExp _ _ _ => "TypeCaseExp"

/-- Modelled from the spec: unparse of the L5-ast module renders an
expression to text; only its success/failure structure matters to the
claims and it always succeeds, so the rendering is abbreviated to the tag. -/
def unparse (e : Exp) : Result String := makeOk (expTag e)

/-- Subtype test: te1 is a subtype of te2 in the context of program p.
True unconditionally when te2 is Any; otherwise te2 is resolved to a
UserDefinedTExp (directly or through a name reference); then te1 passes if
it is a Record contained in te2's record list (Array.includes, modelled as
structural membership) or a name reference matching one of te2's record
names. -/
def isSubType (te1 te2 : TExp) (p : Program) : Bool :=
  if isAnyTExp te2 then true
  else
    let te2TypeExp : Option TExp :=
      if isUserDefinedTExp te2 then some te2
      else if isUserDefinedNameTExp te2 then
        reither (getUserDefinedTypeByName (typeNameOf te2) p) (fun udt => some udt) (fun _ => none)
      else none
    match te2TypeExp with
    | none => false
    | some u =>
      if isRecord te1 then (udRecords u).any (teBeq te1)
      else if isUserDefinedNameTExp te1 then
        (udRecords u).any (fun record => typeNameOf record == typeNameOf te1)
      else false

/-- Deep-equality helper: te1 is a name reference that resolves, through the
program, to a value structurally equal to te2 (which must be a
UserDefinedTExp or a Record). -/
def checkDeepEqualType (te1 te2 : TExp) (p : Program) : Bool :=
  isUserDefinedNameTExp te1 && (isUserDefinedTExp te2 || isRecord te2) &&
    isOk (rbind (getTypeByName (typeNameOf te1) p)
      (fun te1r => if teBeq te1r te2 then makeOk te2 else makeFailure "Incompatible types"))

/-- Compatibility test used everywhere two types must agree: structural
equality, then deep equality through a name reference in either direction,
then the subtype test; each success yields te2, otherwise a failure
rendering both types and the expression. -/
def checkEqualType (te1 te2 : TExp) (exp : Exp) (p : Program) : Result TExp :=
  if teBeq te1 te2 then makeOk te2
  else if checkDeepEqualType te1 te2 p then makeOk te2
  else if checkDeepEqualType te2 te1 p then makeOk te2
  else if isSubType te1 te2 p then makeOk te2
  else
    rbind (unparseTExp te1) (fun s1 =>
      rbind (unparseTExp te2) (fun s2 =>
        rbind (unparse exp) (fun se =>
          makeFailure ("Incompatible types: " ++ s1 ++ " and " ++ s2 ++ " in " ++ se))))

/-- Parent chain of a name reference: shared body of the Record and
UserDefinedNameTExp branches of getParentsType (the Record branch of the
source recurses with makeUserDefinedNameTExp of the record name, landing in
the name-reference branch, which this factors out). -/
def parentsOfName (n : String) (p : Program) : List TExp :=
  reither (getUserDefinedTypeByName n p)
    (fun ud => [TExp.UserDefinedNameTExp (typeNameOf ud)])
    (fun _ =>
      reither (getRecordByName n p)
        (fun rec_ =>
          TExp.UserDefinedNameTExp (typeNameOf rec_) ::
            (getRecordParents (typeNameOf rec_) p).map
              (fun ud => TExp.UserDefinedNameTExp (typeNameOf ud)))
        (fun _ => []))

/-- Parent chain of a type: primitives, procedure types and user-defined
types are their own only ancestor; a record or name reference delegates to
parentsOfName; the remaining variants (TVar, Literal) fall through to the
empty list exactly as in the source dispatch. -/
def getParentsType (te : TExp) (p : Program) : List TExp :=
  match te with
  | .NumTExp => [te]
  | .BoolTExp => [te]
  | .StrTExp => [te]
  | .VoidTExp => [te]
  | .AnyTExp => [te]
  | .ProcTExp _ _ => [te]
  | .UserDefinedTExp _ _ => [te]
  | .RecordTE n _ => parentsOfName n p
  | .UserDefinedNameTExp n => parentsOfName n p
  | .TVar _ => []
  | .LitTExp => []

/-- Worker for uniq: keeps the first occurrence of each element. -/
def uniqAux (seen : List TExp) : List TExp → List TExp
  | [] => []
  | x :: xs => if seen.any (teBeq x) then uniqAux seen xs else x :: uniqAux (x :: seen) xs

/-- Intersection of two type lists (the model of ramda intersection: the
unique elements present in both lists; ramda additionally chooses the
iteration order from the longer list, which affects only the order of the
result, never its elements, and no checker result depends on that order
beyond singleton covers). -/
def rIntersection (l1 l2 : List TExp) : List TExp :=
  uniqAux [] (l1.filter (fun x => l2.any (teBeq x)))

/-- Types that cover all elements of the input list: the intersection of all
parent chains.  The source takes first and rest of the chain list, crashing
on an empty input (never reached by callers with a nonempty list); the empty
case is modelled as the empty cover. -/
def coverTypes (types : List TExp) (p : Program) : List TExp :=
  match types.map (fun t => getParentsType t p) with
  | [] => []
  | h :: t => t.foldl rIntersection h

/-- Most specific type in a list: fold keeping the running candidate unless
the next element is a subtype of it, starting from Any. -/
def mostSpecificType (types : List TExp) (p : Program) : TExp :=
  types.foldl (fun min element => if isSubType element min p then element else min) TExp.AnyTExp

/-- Cover check: fails when no type covers all of types, otherwise the most
specific member of the cover. -/
def checkCoverType (types : List TExp) (p : Program) : Result TExp :=
  let cover := coverTypes types p
  if cover.isEmpty then makeFailure "No type found to cover"
  else makeOk (mostSpecificType cover p)

/-- Type environment (modelled from the spec, sections 2 and 3: TEnv.ts is a
repository file not under src/): persistent chain of frames, each a batch of
names and types; lookup walks frames newest first. -/
inductive TEnv where
  | makeEmptyTEnv
  | makeExtendTEnv (vars : List String) (texps : List TExp) (tenv : TEnv)

/-- Positional lookup inside one frame. -/
def lookupFrame : List String → List TExp → String → Option TExp
  | x :: xs, t :: ts, v => if x = v then some t else lookupFrame xs ts v
  | _, _, _ => none

/-- Environment lookup: newest frame first, failure when exhausted. -/
def applyTEnv : TEnv → String → Result TExp
  | .makeEmptyTEnv, v => makeFailure ("Variable not found " ++ v)
  | .makeExtendTEnv vars texps tenv, v =>
    match lookupFrame vars texps v with
    | some te => makeOk te
    | none => applyTEnv tenv v

/-- Frame of all top-level defines: their names bound to their declared
types. -/
def extendDefineEnv (p : Program) (env : TEnv) : TEnv :=
  TEnv.makeExtendTEnv ((getDefinitions p).map (fun d => d.1.var))
    ((getDefinitions p).map (fun d => d.1.texp)) env

/-- Frame of all define-types: each type name bound to its UserDefinedTExp,
plus a synthesized unary predicate per type. -/
def extendDefineTypesEnv (p : Program) (env : TEnv) : TEnv :=
  let defineTypes := getTypeDefinitions p
  let defineTypeNames := defineTypes.map typeNameOf
  let typePredName := defineTypeNames.map (fun name => name ++ "?")
  let typePred := typePredName.map (fun _ => TExp.ProcTExp [TExp.AnyTExp] TExp.BoolTExp)
  TEnv.makeExtendTEnv (defineTypeNames ++ typePredName) (defineTypes ++ typePred) env

/-- Frame of all records: each record name bound to its Record value, plus a
synthesized predicate and a constructor taking the field types in order. -/
def extendRecordsEnv (p : Program) (env : TEnv) : TEnv :=
  let recordTypes := getRecords p
  let recordNames := recordTypes.map typeNameOf
  let typePredName := recordNames.map (fun name => name ++ "?")
  let typePred := typePredName.map (fun _ => TExp.ProcTExp [TExp.AnyTExp] TExp.BoolTExp)
  let makeNames := recordNames.map (fun name => "make-" ++ name)
  let makeTypes := recordTypes.map (fun rec_ => TExp.ProcTExp ((recFields rec_).map (fun f => f.2)) rec_)
  TEnv.makeExtendTEnv ((recordNames ++ typePredName) ++ makeNames)
    ((recordTypes ++ typePred) ++ makeTypes) env

/-- Initial type environment of a program: defines, then define-types, then
records. -/
def initTEnv (p : Program) : TEnv :=
  extendRecordsEnv p (extendDefineTypesEnv p (extendDefineEnv p TEnv.makeEmptyTEnv))

/-- Field comparison of the well-formedness checker: same field name, same
type tag, equivalent types (equivalentTEs of the TExp module is modelled
from the spec as structural equivalence). -/
def compareFields (f1 f2 : String × TExp) : Bool :=
  f1.1 == f2.1 && typeTag f1.2 == typeTag f2.2 && teBeq f1.2 f2.2

/-- Record-consistency conjunct of checkUserDefinedTypes (the compareRecords
constant in the source): any two records sharing a name must have field
lists equal as sets under compareFields and of equal length. -/
def compareRecordsCheck (p : Program) : Bool :=
  let record := getRecords p
  record.all (fun r =>
    (record.filter (fun r1 => typeNameOf r1 == typeNameOf r)).all (fun r2 =>
      (recFields r).length == (recFields r2).length &&
      (recFields r2).all (fun f2 => (recFields r).any (fun f => compareFields f f2)) &&
      (recFields r).all (fun f => (recFields r2).any (fun f2 => compareFields f f2))))

/-- Base-case conjunct of checkUserDefinedTypes (the isLegalRecord constant
in the source): over the type definitions having some record with a field
whose type is a UserDefinedTExp of the same name, each must have some record
all of whose fields satisfy: if the field type is a UserDefinedTExp then its
name differs from the definition, else false. -/
def isLegalRecordCheck (p : Program) : Bool :=
  ((getTypeDefinitions p).filter (fun d =>
      (udRecords d).any (fun r => (recFields r).any (fun f =>
        if isUserDefinedTExp f.2 then typeNameOf f.2 == typeNameOf d else false)))).all
    (fun d =>
      (udRecords d).any (fun r => (recFields r).all (fun f =>
        if isUserDefinedTExp f.2 then typeNameOf f.2 != typeNameOf d else false)))

/-- Well-formedness of the user-defined types of a program: both conjuncts
must hold, otherwise the single combined failure Invalid UDT. -/
def checkUserDefinedTypes (p : Program) : Result Bool :=
  if compareRecordsCheck p && isLegalRecordCheck p then makeOk true
  else makeFailure "Invalid UDT"

/-- Codepoint-lexicographic comparison of character lists, the order under
which the source sorts by name (localeCompare). -/
def charListLe : List Char → List Char → Bool
  | [], _ => true
  | _ :: _, [] => false
  | a :: as, b :: bs =>
    if a.toNat < b.toNat then true
    else if b.toNat < a.toNat then false
    else charListLe as bs

/-- Name comparison used by the sorts in checkTypeCase. -/
def nameLe (a b : String) : Bool := charListLe a.data b.data

/-- Ordered insertion by a name key. -/
def insertByName {α : Type} (keyOf : α → String) (x : α) : List α → List α
  | [] => [x]
  | y :: ys => if nameLe (keyOf x) (keyOf y) then x :: y :: ys else y :: insertByName keyOf x ys

/-- Sort by a name key (the model of Array.prototype.sort with the
localeCompare comparator; any comparison sort under the same total order is
observationally equal for the checker). -/
def sortByName {α : Type} (keyOf : α → String) : List α → List α
  | [] => []
  | x :: xs => insertByName keyOf x (sortByName keyOf xs)

/-- Pointwise alignment of the sorted record list against the sorted clause
list: matching names and matching field-count against bound-variable count
(the indexed every of the source; only called after the length check). -/
def alignOK : List TExp → List CaseExp → Bool
  | [], _ => true
  | _ :: _, [] => false
  | r :: rs, c :: cs =>
    (typeNameOf r == caseTypeName c && (recFields r).length == (caseVarDecls c).length) &&
      alignOK rs cs

/-- Argument list handed to checkCoverType by checkTypeCase: the dispatched
type name followed by every clause name, all as name references. -/
def typeCaseCoverArg (tcName : String) (tcCases : List CaseExp) : List TExp :=
  TExp.UserDefinedNameTExp tcName ::
    tcCases.map (fun c => TExp.UserDefinedNameTExp (caseTypeName c))

/-- Validation of a type-case: the dispatched name and all clause names must
share a cover, the cover's most specific member must resolve to a
user-defined type, and the name-sorted record list must align with the
name-sorted clause list in count, names and field counts.  The source takes
the TypeCaseExp node; its typeName and cases fields are passed here. -/
def checkTypeCase (tcName : String) (tcCases : List CaseExp) (p : Program) : Result Bool :=
  rbind (checkCoverType (typeCaseCoverArg tcName tcCases) p)
    (fun udtName => rbind (getUserDefinedTypeByName (typeNameOf udtName) p)
      (fun udt =>
        let typeCases := sortByName caseTypeName tcCases
        let records := sortByName typeNameOf (udRecords udt)
        if records.length == typeCases.length && alignOK records typeCases
        then makeOk true else makeFailure "Invalid type-case"))

/-- Explicit-state rendering of the in-place Array.prototype.sort that
checkTypeCase performs on tc.cases: the clause list after the call.  The
sort line runs only once the cover check and the type lookup have
succeeded (the result monad short-circuits before it otherwise), so the
clause list is name-sorted exactly in that case and untouched otherwise.
The record list is spread into a copy before sorting in the source and is
therefore not mutated. -/
def checkTypeCaseCases (tcName : String) (tcCases : List CaseExp) (p : Program) : List CaseExp :=
  match rbind (checkCoverType (typeCaseCoverArg tcName tcCases) p)
      (fun udtName => getUserDefinedTypeByName (typeNameOf udtName) p) with
  | Result.Ok _ => sortByName caseTypeName tcCases
  | Result.Failure _ => tcCases

/-- Shape of the recursive expression typer, passed explicitly to the
per-node rules below.  The source ties the recursion directly; here the
rules are parameterised over the recursive call and tied by typeofExp with
a fuel bound on the recursion depth (the recursion of the source always
descends into subexpressions, so every concrete check succeeds for a large
enough fuel, and the claims are fuel-generic). -/
abbrev TypeofRec := Parsed → TEnv → Program → Result TExp

/-- Number literals have the number type. -/
def typeofNum (_n : Int) : TExp := TExp.NumTExp

/-- Boolean literals have the boolean type. -/
def typeofBool (_b : Bool) : TExp := TExp.BoolTExp

/-- String literals have the string type. -/
def typeofStr (_s : String) : TExp := TExp.StrTExp

/-- Fixed signatures of the primitive operators (the parseTE calls of the
source, written out as type values; the type variables avoid capture just
as the distinct parses do). -/
def typeofPrim (op : String) : Result TExp :=
  if op = "+" then makeOk (TExp.ProcTExp [TExp.NumTExp, TExp.NumTExp] TExp.NumTExp)
  else if op = "-" then makeOk (TExp.ProcTExp [TExp.NumTExp, TExp.NumTExp] TExp.NumTExp)
  else if op = "*" then makeOk (TExp.ProcTExp [TExp.NumTExp, TExp.NumTExp] TExp.NumTExp)
  else if op = "/" then makeOk (TExp.ProcTExp [TExp.NumTExp, TExp.NumTExp] TExp.NumTExp)
  else if op = "and" then makeOk (TExp.ProcTExp [TExp.BoolTExp, TExp.BoolTExp] TExp.BoolTExp)
  else if op = "or" then makeOk (TExp.ProcTExp [TExp.BoolTExp, TExp.BoolTExp] TExp.BoolTExp)
  else if op = ">" then makeOk (TExp.ProcTExp [TExp.NumTExp, TExp.NumTExp] TExp.BoolTExp)
  else if op = "<" then makeOk (TExp.ProcTExp [TExp.NumTExp, TExp.NumTExp] TExp.BoolTExp)
  else if op = "=" then makeOk (TExp.ProcTExp [TExp.NumTExp, TExp.NumTExp] TExp.BoolTExp)
  else if op = "number?" then makeOk (TExp.ProcTExp [TExp.TVar "T"] TExp.BoolTExp)
  else if op = "boolean?" then makeOk (TExp.ProcTExp [TExp.TVar "T"] TExp.BoolTExp)
  else if op = "string?" then makeOk (TExp.ProcTExp [TExp.TVar "T"] TExp.BoolTExp)
  else if op = "list?" then makeOk (TExp.ProcTExp [TExp.TVar "T"] TExp.BoolTExp)
  else if op = "pair?" then makeOk (TExp.ProcTExp [TExp.TVar "T"] TExp.BoolTExp)
  else if op = "symbol?" then makeOk (TExp.ProcTExp [TExp.TVar "T"] TExp.BoolTExp)
  else if op = "not" then makeOk (TExp.ProcTExp [TExp.BoolTExp] TExp.BoolTExp)
  else if op = "eq?" then makeOk (TExp.ProcTExp [TExp.TVar "T1", TExp.TVar "T2"] TExp.BoolTExp)
  else if op = "string=?" then makeOk (TExp.ProcTExp [TExp.TVar "T1", TExp.TVar "T2"] TExp.BoolTExp)
  else if op = "display" then makeOk (TExp.ProcTExp [TExp.TVar "T"] TExp.VoidTExp)
  else if op = "newline" then makeOk (TExp.ProcTExp [] TExp.VoidTExp)
  else makeFailure ("Primitive not yet implemented: " ++ op)

/-- Sequence rule: type each expression in order, the type of the sequence
is the type of the last one.  The source presupposes a nonempty list
(first/rest of an empty list is out of contract); the empty case is
modelled as a failure. -/
def typeofExpsF (rec_ : TypeofRec) : List Exp → TEnv → Program → Result TExp
  | [], _, _ => makeFailure "Empty sequence"
  | [e], tenv, p => rec_ (.E e) tenv p
  | e :: e2 :: es, tenv, p =>
    rbind (rec_ (.E e) tenv p) (fun _ => typeofExpsF rec_ (e2 :: es) tenv p)

/-- Rule for if: the test must equal boolean, the branches must share a
cover, and the result is the cover check of the branches. -/
def typeofIfF (rec_ : TypeofRec) (test thenPart altPart : Exp) (tenv : TEnv) (p : Program) :
    Result TExp :=
  let testTE := rec_ (.E test) tenv p
  let thenTE := rec_ (.E thenPart) tenv p
  let altTE := rec_ (.E altPart) tenv p
  let constraint1 := rbind testTE
    (fun t => checkEqualType t TExp.BoolTExp (Exp.IfExp test thenPart altPart) p)
  let constraint2 := rbind thenTE (fun t1 => rbind altTE (fun t2 => checkCoverType [t1, t2] p))
  rbind constraint1 (fun _ => constraint2)

/-- Rule for procedures: type the body under the parameter bindings, check
it against the declared return type, and build the procedure type from the
declared types. -/
def typeofProcF (rec_ : TypeofRec) (args : List VarDecl) (body : List Exp) (returnTE : TExp)
    (tenv : TEnv) (p : Program) : Result TExp :=
  let argsTEs := args.map (fun vd => vd.texp)
  let extTEnv := TEnv.makeExtendTEnv (args.map (fun vd => vd.var)) argsTEs tenv
  let constraint1 := rbind (typeofExpsF rec_ body extTEnv p)
    (fun bodyT => checkEqualType bodyT returnTE (Exp.ProcExp args body returnTE) p)
  rbind constraint1 (fun rT => makeOk (TExp.ProcTExp argsTEs rT))

/-- Rule for applications: the operator must be a procedure type, the
argument count must match, each argument must be compatible with the
corresponding parameter type, and the result is the declared return type. -/
def typeofAppF (rec_ : TypeofRec) (rator : Exp) (rands : List Exp) (tenv : TEnv) (p : Program) :
    Result TExp :=
  rbind (rec_ (.E rator) tenv p) (fun ratorTE =>
    match ratorTE with
    | TExp.ProcTExp paramTEs returnTE =>
      if rands.length != paramTEs.length then
        rbind (unparse (Exp.AppExp rator rands)) (fun s =>
          makeFailure ("Wrong parameter numbers passed to proc: " ++ s))
      else
        let constraints := zipWithResult
          (fun rand trand => rbind (rec_ (.E rand) tenv p)
            (fun typeOfRand => checkEqualType typeOfRand trand (Exp.AppExp rator rands) p))
          rands paramTEs
        mapv constraints (fun _ => returnTE)
    | _ =>
      rbind (unparseTExp ratorTE) (fun s1 =>
        rbind (unparse (Exp.AppExp rator rands)) (fun s2 =>
          makeFailure ("Application of non-procedure: " ++ s1 ++ " in " ++ s2))))

/-- Rule for let: each initializer must equal its declared type (initializers
see the outer environment only), then the body is typed under all bindings
at once. -/
def typeofLetF (rec_ : TypeofRec) (bindings : List (VarDecl × Exp)) (body : List Exp)
    (tenv : TEnv) (p : Program) : Result TExp :=
  let vars := bindings.map (fun b => b.1.var)
  let vals := bindings.map (fun b => b.2)
  let varTEs := bindings.map (fun b => b.1.texp)
  let constraints := zipWithResult
    (fun varTE val => rbind (rec_ (.E val) tenv p)
      (fun typeOfVal => checkEqualType varTE typeOfVal (Exp.LetExp bindings body) p))
    varTEs vals
  rbind constraints (fun _ => typeofExpsF rec_ body (TEnv.makeExtendTEnv vars varTEs tenv) p)

/-- Test for a procedure expression (isProcExp of the AST module). -/
def isProcExpB : Exp → Bool
  | .ProcExp _ _ _ => true
  | _ => false

/-- Parameters of a procedure expression (default unreachable under the allT
guard of typeofLetrecF). -/
def procArgs : Exp → List VarDecl
  | .ProcExp args _ _ => args
  | _ => []

/-- Body of a procedure expression (default unreachable under the guard). -/
def procBody : Exp → List Exp
  | .ProcExp _ body _ => body
  | _ => []

/-- Declared return type of a procedure expression (default unreachable
under the guard). -/
def procReturnTE : Exp → TExp
  | .ProcExp _ _ ret => ret
  | _ => TExp.VoidTExp

/-- Rule for letrec: only procedure bindings are supported; all declared
procedure types go into one shared frame before any body is checked, each
body is checked under that frame extended with its own parameters and
against its declared return type, and the letrec body is typed in the
shared frame. -/
def typeofLetrecF (rec_ : TypeofRec) (bindings : List (VarDecl × Exp)) (body : List Exp)
    (tenv : TEnv) (p : Program) : Result TExp :=
  let ps := bindings.map (fun b => b.1.var)
  let procs := bindings.map (fun b => b.2)
  if !(procs.all isProcExpB) then
    makeFailure "letrec - only support binding of procedures"
  else
    let paramss := procs.map procArgs
    let bodies := procs.map procBody
    let tijs := paramss.map (fun params => params.map (fun pd => pd.texp))
    let tis := procs.map procReturnTE
    let tenvBody := TEnv.makeExtendTEnv ps
      (List.zipWith (fun tij ti => TExp.ProcTExp tij ti) tijs tis) tenv
    let tenvIs := List.zipWith
      (fun params tij => TEnv.makeExtendTEnv (params.map (fun pd => pd.var)) tij tenvBody)
      paramss tijs
    let types := zipWithResult (fun bodyI tenvI => typeofExpsF rec_ bodyI tenvI p) bodies tenvIs
    let constraints := rbind types (fun ts =>
      zipWithResult (fun typeI ti => checkEqualType typeI ti (Exp.LetrecExp bindings body) p)
        ts tis)
    rbind constraints (fun _ => typeofExpsF rec_ body tenvBody p)

/-- Rule for define: the value is typed in an environment extending tenv
with the defined name bound to its declared type, and a successful check
yields Void.  The source never compares the value's computed type with the
declared type (see the C1 analysis below). -/
def typeofDefineF (rec_ : TypeofRec) (v : VarDecl) (val : Exp) (tenv : TEnv) (p : Program) :
    Result TExp :=
  let valTEnv := TEnv.makeExtendTEnv [v.var] [v.texp] tenv
  let constraint := rec_ (.E val) valTEnv p
  mapv constraint (fun _ => TExp.VoidTExp)

/-- Rule for a whole program: the sequence rule over its expressions. -/
def typeofProgramF (rec_ : TypeofRec) (exp : Program) (tenv : TEnv) (p : Program) : Result TExp :=
  typeofExpsF rec_ exp.exps tenv p

/-- Rule for set!: the variable's current type is the first argument and the
new value's type the second argument of checkEqualType, and a successful
check yields Void. -/
def typeofSetF (rec_ : TypeofRec) (varE valE : Exp) (tenv : TEnv) (p : Program) : Result TExp :=
  let constraints := rbind (rec_ (.E varE) tenv p) (fun typeOfVar =>
    rbind (rec_ (.E valE) tenv p) (fun typeOfVal =>
      checkEqualType typeOfVar typeOfVal (Exp.SetExp varE valE) p))
  mapv constraints (fun _ => TExp.VoidTExp)

/-- Rule for quoted literals: always the literal type. -/
def typeofLit : Result TExp := makeOk TExp.LitTExp

/-- Rule for define-type: runs the well-formedness checker over the whole
program and yields Void. -/
def typeofDefineType (_udType : TExp) (_tenv : TEnv) (p : Program) : Result TExp :=
  rbind (checkUserDefinedTypes p) (fun _ => makeOk TExp.VoidTExp)

/-- Rule for type-case: the dispatched name must resolve, the value's type
must be compatible with it, the clause structure must validate
(checkTypeCase), each clause body is typed under its record's field types,
and the result is the cover of the clause body types.  The clause list
iterated afterwards is the post-checkTypeCase list (checkTypeCaseCases),
reflecting the in-place sort of tc.cases in the source. -/
def typeofTypeCaseF (rec_ : TypeofRec) (tcName : String) (valE : Exp) (tcCases : List CaseExp)
    (tenv : TEnv) (p : Program) : Result TExp :=
  let userDefinedTE := getTypeByName tcName p
  let valTE := rec_ (.E valE) tenv p
  let constraints := rbind userDefinedTE (fun udt => rbind valTE (fun v =>
    rbind (checkEqualType v udt (Exp.TypeCaseExp tcName valE tcCases) p) (fun _ =>
      checkTypeCase tcName tcCases p)))
  rbind constraints (fun _ =>
    rbind (mapResult (fun c =>
        rbind (getRecordByName (caseTypeName c) p) (fun rec2 =>
          typeofExpsF rec_ (caseBody c)
            (TEnv.makeExtendTEnv ((caseVarDecls c).map (fun vd => vd.var))
              ((recFields rec2).map (fun f => f.2)) tenv) p))
      (checkTypeCaseCases tcName tcCases p))
    (fun casesTypes => checkCoverType casesTypes p))

/-- Recursive expression typer: dispatch on the node kind, one rule per
kind, with a fuel bound on the recursion depth. -/
def typeofExp : Nat → Parsed → TEnv → Program → Result TExp
  | 0, _, _, _ => makeFailure "Out of fuel"
  | Nat.succ n, exp, tenv, p =>
    match exp with
    | .E (.NumExp v) => makeOk (typeofNum v)
    | .E (.BoolExp v) => makeOk (typeofBool v)
    | .E (.StrExp v) => makeOk (typeofStr v)
    | .E (.PrimOp op) => typeofPrim op
    | .E (.VarRef v) => applyTEnv tenv v
    | .E (.IfExp t th al) => typeofIfF (typeofExp n) t th al tenv p
    | .E (.ProcExp args body ret) => typeofProcF (typeofExp n) args body ret tenv p
    | .E (.AppExp rator rands) => typeofAppF (typeofExp n) rator rands tenv p
    | .E (.LetExp bs body) => typeofLetF (typeofExp n) bs body tenv p
    | .E (.LetrecExp bs body) => typeofLetrecF (typeofExp n) bs body tenv p
    | .E (.DefineExp v val) => typeofDefineF (typeofExp n) v val tenv p
    | .P prog => typeofProgramF (typeofExp n) prog tenv p
    | .E (.SetExp ve vale) => typeofSetF (typeofExp n) ve vale tenv p
    | .E .LitExp => typeofLit
    | .E (.DefineTypeExp ud) => typeofDefineType ud tenv p
    | .E (.TypeCaseExp tn ve cs) => typeofTypeCaseF (typeofExp n) tn ve cs tenv p

/-- Sequence typer at a given fuel. -/
def typeofExps (fuel : Nat) (exps : List Exp) (tenv : TEnv) (p : Program) : Result TExp :=
  typeofExpsF (typeofExp fuel) exps tenv p

/-- Define rule at a given fuel (typeofDefine of the source). -/
def typeofDefine (fuel : Nat) (v : VarDecl) (val : Exp) (tenv : TEnv) (p : Program) :
    Result TExp :=
  typeofDefineF (typeofExp fuel) v val tenv p

/-- Set rule at a given fuel (typeofSet of the source). -/
def typeofSet (fuel : Nat) (varE valE : Exp) (tenv : TEnv) (p : Program) : Result TExp :=
  typeofSetF (typeofExp fuel) varE valE tenv p

/-- Type-case rule at a given fuel (typeofTypeCase of the source). -/
def typeofTypeCase (fuel : Nat) (tcName : String) (valE : Exp) (tcCases : List CaseExp)
    (tenv : TEnv) (p : Program) : Result TExp :=
  typeofTypeCaseF (typeofExp fuel) tcName valE tcCases tenv p

/-- Top-level entry.  Modelled from the spec, section 6: the source first
parses the concrete string with parseL51 (L5-ast.ts, a repository file not
under src/); the entry is modelled on the already-parsed Program, which the
spec names as an accepted input form.  It types the whole program under the
initial environment and then separately re-runs the well-formedness checker
before unparsing the resulting type. -/
def L51typeofProgram (fuel : Nat) (p : Program) : Result String :=
  rbind (typeofExp fuel (.P p) (initTEnv p) p) (fun t =>
    rbind (checkUserDefinedTypes p) (fun _ => unparseTExp t))

/-- Record Leaf with one number field: a base case of the Tree type. -/
def leafRec : TExp := TExp.RecordTE "Leaf" [("val", TExp.NumTExp)]

/-- Record Node whose two fields reference the enclosing Tree type by name,
as the parser produces them: a type annotation naming a user-defined type is
an unresolved UserDefinedNameTExp (spec, section 3), never the resolved
UserDefinedTExp value, which would be cyclic for a self-referential type. -/
def nodeRec : TExp :=
  TExp.RecordTE "Node"
    [("left", TExp.UserDefinedNameTExp "Tree"), ("right", TExp.UserDefinedNameTExp "Tree")]

/-- Recursive Tree type with a base case: define-type Tree
(Leaf (val : number)) (Node (left : Tree) (right : Tree)). -/
def treeUD : TExp := TExp.UserDefinedTExp "Tree" [leafRec, nodeRec]

/-- Program declaring the Tree type. -/
def pTree : Program := Program.mk [Exp.DefineTypeExp treeUD]

/-- Record SCons whose tail field references the enclosing Stream type by
name (the parsed form of the annotation, as for nodeRec). -/
def sconsRec : TExp :=
  TExp.RecordTE "SCons"
    [("head", TExp.NumTExp), ("tail", TExp.UserDefinedNameTExp "Stream")]

/-- Self-referential Stream type with no base case: define-type Stream
(SCons (head : number) (tail : Stream)). -/
def streamUD : TExp := TExp.UserDefinedTExp "Stream" [sconsRec]

/-- Program declaring the Stream type. -/
def pStream : Program := Program.mk [Exp.DefineTypeExp streamUD]

/-- Record RR declared with a number field in one type definition. -/
def redeclRecNum : TExp := TExp.RecordTE "RR" [("a", TExp.NumTExp)]

/-- Record RR redeclared with a boolean field in another type definition. -/
def redeclRecBool : TExp := TExp.RecordTE "RR" [("a", TExp.BoolTExp)]

/-- Program redeclaring the record RR with conflicting field types across
two type definitions: rejected by the consistency conjunct of
checkUserDefinedTypes. -/
def pRedecl : Program :=
  Program.mk [Exp.DefineTypeExp (TExp.UserDefinedTExp "UD1" [redeclRecNum]),
              Exp.DefineTypeExp (TExp.UserDefinedTExp "UD2" [redeclRecBool])]

/-- Record RecA with no fields: first case of the Shape union. -/
def recA : TExp := TExp.RecordTE "RecA" []

/-- Record RecB with one number field: second case of the Shape union. -/
def recB : TExp := TExp.RecordTE "RecB" [("fldB", TExp.NumTExp)]

/-- Union type Shape with cases RecA and RecB. -/
def shapeUD : TExp := TExp.UserDefinedTExp "Shape" [recA, recB]

/-- Program declaring the Shape union. -/
def pShape : Program := Program.mk [Exp.DefineTypeExp shapeUD]

/-- Type-case clause list for Shape given in reverse source order (RecB
before RecA), with bound-variable counts matching the field counts. -/
def tcCasesBA : List CaseExp :=
  [("RecB", [VarDecl.mk "b1" TExp.NumTExp], [Exp.LitExp]),
   ("RecA", [], [Exp.LitExp])]

/-- Environment binding x to the record RecA and y to the union Shape. -/
def tenvShape : TEnv :=
  TEnv.makeExtendTEnv ["x", "y"] [recA, shapeUD] TEnv.makeEmptyTEnv

theorem charListLe_total : ∀ as bs, charListLe as bs = true ∨ charListLe bs as = true
  | [], _ => by left; simp [charListLe]
  | _ :: _, [] => by right; simp [charListLe]
  | a :: as, b :: bs => by
      simp only [charListLe]
      rcases Nat.lt_trichotomy a.toNat b.toNat with h | h | h
      · left; simp [h]
      · simp [h, Nat.lt_irrefl]
        exact charListLe_total as bs
      · right; simp [h, Nat.not_lt.mpr (Nat.le_of_lt h)]

theorem charListLe_trans : ∀ as bs cs, charListLe as bs = true → charListLe bs cs = true →
    charListLe as cs = true
  | [], _, _ => by intro _ _; simp [charListLe]
  | _ :: _, [], _ => by intro h _; simp [charListLe] at h
  | _ :: _, _ :: _, [] => by intro _ h; simp [charListLe] at h
  | a :: as, b :: bs, c :: cs => by
      intro h1 h2
      simp only [charListLe] at h1 h2 ⊢
      rcases Nat.lt_trichotomy a.toNat b.toNat with hab | hab | hab <;>
        rcases Nat.lt_trichotomy b.toNat c.toNat with hbc | hbc | hbc
      · simp [Nat.lt_trans hab hbc]
      · simp [hbc ▸ hab]
      · simp [Nat.lt_asymm hbc, hbc] at h2
      · simp [hab ▸ hbc]
      · have hac : a.toNat = c.toNat := hab.trans hbc
        simp only [hab, Nat.lt_irrefl, if_false, if_true] at h1
        simp only [hbc, Nat.lt_irrefl, if_false, if_true] at h2
        simp only [hac, Nat.lt_irrefl, if_false, if_true]
        exact charListLe_trans as bs cs h1 h2
      · simp [Nat.lt_asymm hbc, hbc] at h2
      · simp [Nat.lt_asymm hab, hab] at h1
      · simp [Nat.lt_asymm hab, hab] at h1
      · simp [Nat.lt_asymm hab, hab] at h1

theorem charListLe_antisymm : ∀ as bs, charListLe as bs = true → charListLe bs as = true → as = bs
  | [], [] => by simp
  | [], _ :: _ => by simp [charListLe]
  | _ :: _, [] => by simp [charListLe]
  | a :: as, b :: bs => by
      simp only [charListLe]
      rcases Nat.lt_trichotomy a.toNat b.toNat with h | h | h
      · simp [h, Nat.lt_asymm h]
      · have hab : a = b := by
          have hv : a.val = b.val := UInt32.ext h
          exact Char.eq_of_val_eq hv
        subst hab
        simp [Nat.lt_irrefl]
        exact charListLe_antisymm as bs
      · simp [h, Nat.lt_asymm h]

theorem nameLe_total (a b : String) : nameLe a b = true ∨ nameLe b a = true :=
  charListLe_total a.data b.data

theorem nameLe_trans (a b c : String) (h1 : nameLe a b = true) (h2 : nameLe b c = true) :
    nameLe a c = true :=
  charListLe_trans a.data b.data c.data h1 h2

theorem nameLe_antisymm (a b : String) (h1 : nameLe a b = true) (h2 : nameLe b a = true) :
    a = b := by
  have h3 := charListLe_antisymm _ _ h1 h2
  cases a; cases b; simp_all

theorem insertByName_perm {α : Type} (keyOf : α → String) (x : α) :
    ∀ l : List α, (insertByName keyOf x l).Perm (x :: l)
  | [] => List.Perm.refl _
  | y :: ys => by
      simp only [insertByName]
      by_cases h : nameLe (keyOf x) (keyOf y) = true
      · rw [if_pos h]
      · rw [if_neg h]
        exact ((insertByName_perm keyOf x ys).cons y).trans (List.Perm.swap x y ys)

theorem sortByName_perm {α : Type} (keyOf : α → String) :
    ∀ l : List α, (sortByName keyOf l).Perm l
  | [] => List.Perm.refl _
  | x :: xs =>
      (insertByName_perm keyOf x (sortByName keyOf xs)).trans
        ((sortByName_perm keyOf xs).cons x)

theorem mem_insertByName {α : Type} (keyOf : α → String) (x z : α) (l : List α) :
    z ∈ insertByName keyOf x l ↔ z = x ∨ z ∈ l := by
  rw [(insertByName_perm keyOf x l).mem_iff]
  simp

theorem insertByName_pairwise {α : Type} (keyOf : α → String) (x : α) :
    ∀ l : List α, l.Pairwise (fun a b => nameLe (keyOf a) (keyOf b) = true) →
      (insertByName keyOf x l).Pairwise (fun a b => nameLe (keyOf a) (keyOf b) = true)
  | [], _ => by simp [insertByName]
  | y :: ys, hl => by
      rw [List.pairwise_cons] at hl
      obtain ⟨hy, hys⟩ := hl
      simp only [insertByName]
      by_cases h : nameLe (keyOf x) (keyOf y) = true
      · rw [if_pos h]
        refine List.Pairwise.cons ?_ (List.Pairwise.cons hy hys)
        intro z hz
        rcases List.mem_cons.mp hz with rfl | hz2
        · exact h
        · exact nameLe_trans _ _ _ h (hy z hz2)
      · rw [if_neg h]
        have hyx : nameLe (keyOf y) (keyOf x) = true := by
          rcases nameLe_total (keyOf x) (keyOf y) with h2 | h2
          · exact absurd h2 h
          · exact h2
        refine List.Pairwise.cons ?_ (insertByName_pairwise keyOf x ys hys)
        intro z hz
        rcases (mem_insertByName keyOf x z ys).mp hz with rfl | hz2
        · exact hyx
        · exact hy z hz2

theorem sortByName_pairwise {α : Type} (keyOf : α → String) :
    ∀ l : List α, (sortByName keyOf l).Pairwise (fun a b => nameLe (keyOf a) (keyOf b) = true)
  | [] => by simp [sortByName]
  | x :: xs => insertByName_pairwise keyOf x _ (sortByName_pairwise keyOf xs)

theorem any_teBeq_iff (x : TExp) (l : List TExp) : l.any (teBeq x) = true ↔ x ∈ l := by
  rw [List.any_eq_true]
  constructor
  · rintro ⟨y, hy, ht⟩
    rw [(teBeq_iff x y).mp ht]
    exact hy
  · intro hx
    exact ⟨x, hx, teBeq_refl x⟩

theorem strContains_iff (l : List String) (s : String) : l.contains s = true ↔ s ∈ l := by
  rw [List.contains_iff_exists_mem_beq]
  constructor
  · rintro ⟨y, hy, ht⟩
    rw [eq_of_beq ht]
    exact hy
  · intro hs
    exact ⟨s, hs, by simp⟩

theorem mem_uniqAux (x : TExp) : ∀ (l seen : List TExp), x ∈ uniqAux seen l ↔ (x ∈ l ∧ x ∉ seen)
  | [], seen => by simp [uniqAux]
  | a :: as, seen => by
      simp only [uniqAux]
      by_cases h : seen.any (teBeq a) = true
      · rw [if_pos h, mem_uniqAux x as seen]
        have ha : a ∈ seen := (any_teBeq_iff a seen).mp h
        simp only [List.mem_cons]
        constructor
        · rintro ⟨hx, hn⟩
          exact ⟨Or.inr hx, hn⟩
        · rintro ⟨hx | hx, hn⟩
          · exact absurd (hx ▸ ha) hn
          · exact ⟨hx, hn⟩
      · rw [if_neg h]
        have ha : a ∉ seen := fun hmem => h ((any_teBeq_iff a seen).mpr hmem)
        simp only [List.mem_cons, mem_uniqAux x as (a :: seen)]
        constructor
        · rintro (rfl | ⟨hx, hn⟩)
          · exact ⟨Or.inl rfl, ha⟩
          · exact ⟨Or.inr hx, fun hs => hn (Or.inr hs)⟩
        · rintro ⟨hx | hx, hn⟩
          · exact Or.inl hx
          · by_cases hxa : x = a
            · exact Or.inl hxa
            · exact Or.inr ⟨hx, fun hs => hs.elim hxa hn⟩

theorem mem_rIntersection (x : TExp) (l1 l2 : List TExp) :
    x ∈ rIntersection l1 l2 ↔ (x ∈ l1 ∧ x ∈ l2) := by
  rw [rIntersection, mem_uniqAux]
  constructor
  · rintro ⟨hf, _⟩
    have h2 := List.mem_filter.mp hf
    exact ⟨h2.1, (any_teBeq_iff x l2).mp h2.2⟩
  · rintro ⟨h1, h2⟩
    exact ⟨List.mem_filter.mpr ⟨h1, (any_teBeq_iff x l2).mpr h2⟩, List.not_mem_nil x⟩

theorem getItemByName_ok {α : Type} (nameOf : α → String) (n : String) :
    ∀ (l : List α) (x : α), getItemByName nameOf n l = makeOk x → nameOf x = n ∧ x ∈ l
  | [], x => by simp [getItemByName, makeFailure, makeOk]
  | y :: ys, x => by
      simp only [getItemByName]
      by_cases h : nameOf y = n
      · rw [if_pos h]
        intro he
        have : y = x := by simpa [makeOk] using he
        subst this
        exact ⟨h, List.mem_cons_self y ys⟩
      · rw [if_neg h]
        intro he
        obtain ⟨h1, h2⟩ := getItemByName_ok nameOf n ys x he
        exact ⟨h1, List.mem_cons_of_mem y h2⟩

theorem getItemByName_mem {α : Type} (nameOf : α → String) (n : String) :
    ∀ l : List α, (∃ x ∈ l, nameOf x = n) →
      ∃ y, getItemByName nameOf n l = makeOk y ∧ nameOf y = n
  | [], hx => by simp at hx
  | y :: ys, hx => by
      simp only [getItemByName]
      by_cases h : nameOf y = n
      · exact ⟨y, by rw [if_pos h], h⟩
      · rw [if_neg h]
        obtain ⟨x, hmem, hn⟩ := hx
        rcases List.mem_cons.mp hmem with rfl | hmem2
        · exact absurd hn h
        · exact getItemByName_mem nameOf n ys ⟨x, hmem2, hn⟩

theorem checkEqualType_record_of_union (p : Program) (exp : Exp) (U R : TExp)
    (hR : isRecord R = true) (hU : isUserDefinedTExp U = true) (hmem : R ∈ udRecords U) :
    checkEqualType R U exp p = makeOk U ∧ isFailure (checkEqualType U R exp p) = true := by
  obtain ⟨n, fs, rfl⟩ : ∃ n fs, R = TExp.RecordTE n fs := by
    cases R <;> simp_all [isRecord]
  obtain ⟨m, rs, rfl⟩ : ∃ m rs, U = TExp.UserDefinedTExp m rs := by
    cases U <;> simp_all [isUserDefinedTExp]
  have hany : rs.any (teBeq (TExp.RecordTE n fs)) = true := (any_teBeq_iff _ _).mpr hmem
  have hbe1 : teBeq (TExp.RecordTE n fs) (TExp.UserDefinedTExp m rs) = false := rfl
  have hbe2 : teBeq (TExp.UserDefinedTExp m rs) (TExp.RecordTE n fs) = false := rfl
  have hd1 : checkDeepEqualType (TExp.RecordTE n fs) (TExp.UserDefinedTExp m rs) p = false := rfl
  have hd2 : checkDeepEqualType (TExp.UserDefinedTExp m rs) (TExp.RecordTE n fs) p = false := rfl
  have hsub1 : isSubType (TExp.RecordTE n fs) (TExp.UserDefinedTExp m rs) p =
      rs.any (teBeq (TExp.RecordTE n fs)) := rfl
  have hsub2 : isSubType (TExp.UserDefinedTExp m rs) (TExp.RecordTE n fs) p = false := rfl
  constructor
  · simp [checkEqualType, hbe1, hd1, hd2, hsub1, hany]
  · simp [checkEqualType, hbe2, hd1, hd2, hsub2, unparseTExp, unparse, rbind, makeOk,
          makeFailure, isFailure]

theorem rIntersection_nil_left (l : List TExp) : rIntersection [] l = [] := rfl

theorem foldl_rIntersection_nil : ∀ ls : List (List TExp), ls.foldl rIntersection [] = []
  | [] => rfl
  | l :: ls => by
      rw [List.foldl_cons, rIntersection_nil_left]
      exact foldl_rIntersection_nil ls

theorem rIntersection_singleton (x : TExp) (l : List TExp) :
    rIntersection [x] l = if l.any (teBeq x) = true then [x] else [] := by
  by_cases h : l.any (teBeq x) = true
  · rw [if_pos h]
    simp [rIntersection, List.filter, h, uniqAux]
  · rw [if_neg h]
    have h2 : l.any (teBeq x) = false := by
      cases h3 : l.any (teBeq x)
      · rfl
      · exact absurd h3 h
    simp [rIntersection, List.filter, h2, uniqAux]

theorem foldl_rIntersection_singleton (x : TExp) :
    ∀ ls : List (List TExp),
      ls.foldl rIntersection [x] = if ls.all (fun l => l.any (teBeq x)) = true then [x] else []
  | [] => by simp
  | l :: ls => by
      rw [List.foldl_cons, rIntersection_singleton]
      by_cases h : l.any (teBeq x) = true
      · rw [if_pos h, foldl_rIntersection_singleton x ls]
        simp [List.all_cons, h]
      · rw [if_neg h, foldl_rIntersection_nil]
        have h2 : l.any (teBeq x) = false := by
          cases h3 : l.any (teBeq x)
          · rfl
          · exact absurd h3 h
        simp [List.all_cons, h2]

theorem mostSpecificType_singleton (x : TExp) (p : Program) : mostSpecificType [x] p = x := by
  have hsub : isSubType x TExp.AnyTExp p = true := by simp [isSubType, isAnyTExp]
  simp [mostSpecificType, hsub]

theorem mem_getRecords (p : Program) (U r : TExp) (hUdef : U ∈ getTypeDefinitions p)
    (hr : r ∈ udRecords U) : r ∈ getRecords p := by
  rw [getRecords, List.mem_flatten]
  exact ⟨udRecords U, List.mem_map_of_mem udRecords hUdef, hr⟩

theorem getParentsType_name_ud (tcName : String) (p : Program) (U : TExp)
    (hU : getUserDefinedTypeByName tcName p = makeOk U) :
    getParentsType (TExp.UserDefinedNameTExp tcName) p = [TExp.UserDefinedNameTExp tcName] := by
  have hn := (getItemByName_ok typeNameOf tcName _ U hU).1
  show parentsOfName tcName p = _
  rw [parentsOfName, hU]
  simp [reither, makeOk, hn]

theorem mem_parents_of_record_name (tcName s : String) (p : Program) (U : TExp)
    (hU : getUserDefinedTypeByName tcName p = makeOk U)
    (hfail : isFailure (getUserDefinedTypeByName s p) = true)
    (hs : ∃ r ∈ udRecords U, typeNameOf r = s) :
    TExp.UserDefinedNameTExp tcName ∈ getParentsType (TExp.UserDefinedNameTExp s) p := by
  obtain ⟨hn, hUdef⟩ := getItemByName_ok typeNameOf tcName _ U hU
  obtain ⟨r, hrmem, hrname⟩ := hs
  obtain ⟨msg, hmsg⟩ : ∃ msg, getUserDefinedTypeByName s p = Result.Failure msg := by
    cases h2 : getUserDefinedTypeByName s p with
    | Ok v => rw [h2] at hfail; simp [isFailure] at hfail
    | Failure m => exact ⟨m, rfl⟩
  have hrrec : r ∈ getRecords p := mem_getRecords p U r hUdef hrmem
  obtain ⟨y, hy, hyname⟩ :=
    getItemByName_mem typeNameOf s (getRecords p) ⟨r, hrrec, hrname⟩
  show TExp.UserDefinedNameTExp tcName ∈ parentsOfName s p
  rw [parentsOfName, hmsg]
  show TExp.UserDefinedNameTExp tcName ∈ reither (getRecordByName s p) _ _
  rw [getRecordByName, hy]
  simp only [reither, makeOk]
  apply List.mem_cons_of_mem
  rw [List.mem_map]
  refine ⟨U, ?_, by rw [hn]⟩
  rw [getRecordParents, List.mem_filter]
  refine ⟨hUdef, ?_⟩
  rw [hyname]
  exact (strContains_iff _ s).mpr (hrname ▸ List.mem_map_of_mem typeNameOf hrmem)

theorem coverTypes_cons (t : TExp) (ts : List TExp) (p : Program) :
    coverTypes (t :: ts) p =
      (ts.map (fun t2 => getParentsType t2 p)).foldl rIntersection (getParentsType t p) := rfl

theorem cond_bridge (tcCases : List CaseExp) (p : Program) (x : TExp) :
    ((tcCases.map (fun c => getParentsType (TExp.UserDefinedNameTExp (caseTypeName c)) p)).all
      (fun l => l.any (teBeq x)) = true) ↔
    (∀ c ∈ tcCases, x ∈ getParentsType (TExp.UserDefinedNameTExp (caseTypeName c)) p) := by
  rw [List.all_eq_true]
  constructor
  · intro h c hc
    exact (any_teBeq_iff _ _).mp (h _ (List.mem_map_of_mem _ hc))
  · intro h l hl
    rw [List.mem_map] at hl
    obtain ⟨c, hc, rfl⟩ := hl
    exact (any_teBeq_iff _ _).mpr (h c hc)

theorem coverTypes_typeCase (tcName : String) (tcCases : List CaseExp) (p : Program) (U : TExp)
    (hU : getUserDefinedTypeByName tcName p = makeOk U) :
    coverTypes (typeCaseCoverArg tcName tcCases) p =
      if (∀ c ∈ tcCases,
            TExp.UserDefinedNameTExp tcName ∈
              getParentsType (TExp.UserDefinedNameTExp (caseTypeName c)) p)
      then [TExp.UserDefinedNameTExp tcName] else [] := by
  rw [typeCaseCoverArg, coverTypes_cons, getParentsType_name_ud tcName p U hU,
      foldl_rIntersection_singleton, List.map_map]
  by_cases h : ∀ c ∈ tcCases,
      TExp.UserDefinedNameTExp tcName ∈
        getParentsType (TExp.UserDefinedNameTExp (caseTypeName c)) p
  · rw [if_pos h, if_pos]
    exact (cond_bridge tcCases p _).mpr h
  · rw [if_neg h, if_neg]
    intro hc
    exact h ((cond_bridge tcCases p _).mp hc)

theorem checkTypeCase_characterization (tcName : String) (tcCases : List CaseExp) (p : Program)
    (U : TExp) (hU : getUserDefinedTypeByName tcName p = makeOk U) :
    checkTypeCase tcName tcCases p =
      if (∀ c ∈ tcCases,
            TExp.UserDefinedNameTExp tcName ∈
              getParentsType (TExp.UserDefinedNameTExp (caseTypeName c)) p)
      then (if ((sortByName typeNameOf (udRecords U)).length
                  == (sortByName caseTypeName tcCases).length
                && alignOK (sortByName typeNameOf (udRecords U))
                     (sortByName caseTypeName tcCases)) = true
            then makeOk true else makeFailure "Invalid type-case")
      else makeFailure "No type found to cover" := by
  rw [checkTypeCase, checkCoverType, coverTypes_typeCase tcName tcCases p U hU]
  by_cases h : ∀ c ∈ tcCases,
      TExp.UserDefinedNameTExp tcName ∈
        getParentsType (TExp.UserDefinedNameTExp (caseTypeName c)) p
  · rw [if_pos h, if_pos h]
    simp only [List.isEmpty_cons, if_false, Bool.false_eq_true, if_neg]
    rw [mostSpecificType_singleton]
    show rbind (makeOk (TExp.UserDefinedNameTExp tcName)) _ = _
    rw [makeOk]
    show rbind (getUserDefinedTypeByName tcName p) _ = _
    rw [hU, makeOk]
    rfl
  · rw [if_neg h, if_neg h]
    rfl

theorem align_iff_maps :
    ∀ (rs : List TExp) (cs : List CaseExp),
      ((rs.length == cs.length && alignOK rs cs) = true) ↔
        rs.map (fun r => (typeNameOf r, (recFields r).length)) =
          cs.map (fun c => (caseTypeName c, (caseVarDecls c).length))
  | [], [] => by simp [alignOK]
  | [], _ :: _ => by simp [alignOK]
  | _ :: _, [] => by simp [alignOK]
  | r :: rs, c :: cs => by
      have ih := align_iff_maps rs cs
      simp only [alignOK, List.map_cons, List.cons.injEq, Prod.mk.injEq, List.length_cons,
        Bool.and_eq_true, beq_iff_eq] at ih ⊢
      constructor
      · rintro ⟨hlen, ⟨hname, hcnt⟩, halign⟩
        have hlen2 : rs.length = cs.length := by omega
        exact ⟨⟨hname, hcnt⟩, ih.mp ⟨hlen2, halign⟩⟩
      · rintro ⟨⟨hname, hcnt⟩, hmaps⟩
        obtain ⟨hlen, halign⟩ := ih.mpr hmaps
        exact ⟨by omega, ⟨hname, hcnt⟩, halign⟩

theorem sorted_pairs_eq (A B : List (String × Nat))
    (hperm : A.Perm B)
    (hA : A.Pairwise (fun x y => nameLe x.1 y.1 = true))
    (hB : B.Pairwise (fun x y => nameLe x.1 y.1 = true))
    (hnodupB : (B.map Prod.fst).Nodup) : A = B := by
  have hnodupA : (A.map Prod.fst).Nodup := ((hperm.map Prod.fst).nodup_iff).mpr hnodupB
  have hneA : A.Pairwise (fun x y : String × Nat => x.1 ≠ y.1) := List.pairwise_map.mp hnodupA
  have hneB : B.Pairwise (fun x y : String × Nat => x.1 ≠ y.1) := List.pairwise_map.mp hnodupB
  haveI : IsAntisymm (String × Nat) (fun x y => nameLe x.1 y.1 = true ∧ x.1 ≠ y.1) :=
    ⟨fun a b ha hb => absurd (nameLe_antisymm _ _ ha.1 hb.1) ha.2⟩
  exact List.eq_of_perm_of_sorted hperm (hA.and hneA) (hB.and hneB)

/-- C3: for a type-case dispatching on a user-defined union type (the
dispatched name resolves to the union U, the union's record names are
distinct and none of them names a union), checkTypeCase succeeds exactly
when the clause set, aligned by name independently of order, has exactly
one clause per constituent record with the bound-variable count equal to
that record's field count; and whenever every clause name is drawn from the
union's record names but the exact alignment fails (a proper subset of the
records in particular, or a duplicated clause), the failure is the
Invalid type-case error.  A clause naming a record outside the union breaks
the common-cover premise and so also fails (the left-to-right direction of
the equivalence). -/
theorem C3_checkTypeCase_exact_match (p : Program) (U : TExp) (tcName : String)
    (tcCases : List CaseExp)
    (hU : getUserDefinedTypeByName tcName p = makeOk U)
    (hnodup : ((udRecords U).map typeNameOf).Nodup)
    (hrecNotUD : ∀ r ∈ udRecords U,
      isFailure (getUserDefinedTypeByName (typeNameOf r) p) = true) :
    (isOk (checkTypeCase tcName tcCases p) = true ↔
      (tcCases.map (fun c => (caseTypeName c, (caseVarDecls c).length))).Perm
        ((udRecords U).map (fun r => (typeNameOf r, (recFields r).length))))
    ∧ ((∀ c ∈ tcCases, caseTypeName c ∈ (udRecords U).map typeNameOf) →
        ¬ (tcCases.map (fun c => (caseTypeName c, (caseVarDecls c).length))).Perm
            ((udRecords U).map (fun r => (typeNameOf r, (recFields r).length))) →
        checkTypeCase tcName tcCases p = makeFailure "Invalid type-case") := by
  classical
  have hSRP_perm :
      ((sortByName typeNameOf (udRecords U)).map
          (fun r => (typeNameOf r, (recFields r).length))).Perm
        ((udRecords U).map (fun r => (typeNameOf r, (recFields r).length))) :=
    (sortByName_perm typeNameOf (udRecords U)).map _
  have hSCP_perm :
      ((sortByName caseTypeName tcCases).map
          (fun c => (caseTypeName c, (caseVarDecls c).length))).Perm
        (tcCases.map (fun c => (caseTypeName c, (caseVarDecls c).length))) :=
    (sortByName_perm caseTypeName tcCases).map _
  have hSRP_pw :
      ((sortByName typeNameOf (udRecords U)).map
          (fun r => (typeNameOf r, (recFields r).length))).Pairwise
        (fun x y => nameLe x.1 y.1 = true) :=
    List.pairwise_map.mpr (sortByName_pairwise typeNameOf (udRecords U))
  have hSCP_pw :
      ((sortByName caseTypeName tcCases).map
          (fun c => (caseTypeName c, (caseVarDecls c).length))).Pairwise
        (fun x y => nameLe x.1 y.1 = true) :=
    List.pairwise_map.mpr (sortByName_pairwise caseTypeName tcCases)
  have hRPfst :
      (((udRecords U).map (fun r => (typeNameOf r, (recFields r).length))).map Prod.fst)
        = (udRecords U).map typeNameOf := by
    rw [List.map_map]
    rfl
  have hRPnodup :
      (((udRecords U).map (fun r => (typeNameOf r, (recFields r).length))).map Prod.fst).Nodup :=
    hRPfst ▸ hnodup
  have hSRPnodup :
      (((sortByName typeNameOf (udRecords U)).map
          (fun r => (typeNameOf r, (recFields r).length))).map Prod.fst).Nodup :=
    ((hSRP_perm.map Prod.fst).nodup_iff).mpr hRPnodup
  have hcond_of_names :
      (∀ c ∈ tcCases, caseTypeName c ∈ (udRecords U).map typeNameOf) →
      (∀ c ∈ tcCases,
        TExp.UserDefinedNameTExp tcName ∈
          getParentsType (TExp.UserDefinedNameTExp (caseTypeName c)) p) := by
    intro hnames c hc
    obtain ⟨r, hr, hrn⟩ := List.mem_map.mp (hnames c hc)
    exact mem_parents_of_record_name tcName (caseTypeName c) p U hU
      (hrn ▸ hrecNotUD r hr) ⟨r, hr, hrn⟩
  have hperm_of_align :
      ((sortByName typeNameOf (udRecords U)).map
          (fun r => (typeNameOf r, (recFields r).length))
        = (sortByName caseTypeName tcCases).map
            (fun c => (caseTypeName c, (caseVarDecls c).length))) →
      (tcCases.map (fun c => (caseTypeName c, (caseVarDecls c).length))).Perm
        ((udRecords U).map (fun r => (typeNameOf r, (recFields r).length))) := by
    intro he
    exact (he ▸ hSCP_perm.symm).trans hSRP_perm
  have halign_of_perm :
      (tcCases.map (fun c => (caseTypeName c, (caseVarDecls c).length))).Perm
        ((udRecords U).map (fun r => (typeNameOf r, (recFields r).length))) →
      ((sortByName typeNameOf (udRecords U)).map
          (fun r => (typeNameOf r, (recFields r).length))
        = (sortByName caseTypeName tcCases).map
            (fun c => (caseTypeName c, (caseVarDecls c).length))) := by
    intro hperm
    have hchain :
        ((sortByName typeNameOf (udRecords U)).map
            (fun r => (typeNameOf r, (recFields r).length))).Perm
          ((sortByName caseTypeName tcCases).map
            (fun c => (caseTypeName c, (caseVarDecls c).length))) :=
      (hSRP_perm.trans hperm.symm).trans hSCP_perm.symm
    have hSCPnodup :
        (((sortByName caseTypeName tcCases).map
            (fun c => (caseTypeName c, (caseVarDecls c).length))).map Prod.fst).Nodup :=
      ((hchain.map Prod.fst).nodup_iff).mp hSRPnodup
    exact sorted_pairs_eq _ _ hchain hSRP_pw hSCP_pw hSCPnodup
  rw [checkTypeCase_characterization tcName tcCases p U hU]
  constructor
  · constructor
    · intro hok
      by_cases hcond : ∀ c ∈ tcCases,
          TExp.UserDefinedNameTExp tcName ∈
            getParentsType (TExp.UserDefinedNameTExp (caseTypeName c)) p
      · rw [if_pos hcond] at hok
        by_cases halign :
            ((sortByName typeNameOf (udRecords U)).length
                == (sortByName caseTypeName tcCases).length
              && alignOK (sortByName typeNameOf (udRecords U))
                  (sortByName caseTypeName tcCases)) = true
        · exact hperm_of_align ((align_iff_maps _ _).mp halign)
        · rw [if_neg halign] at hok
          simp [isOk, makeFailure] at hok
      · rw [if_neg hcond] at hok
        simp [isOk, makeFailure] at hok
    · intro hperm
      have hnames : ∀ c ∈ tcCases, caseTypeName c ∈ (udRecords U).map typeNameOf := by
        intro c hc
        have h1 := List.mem_map_of_mem
          (fun c => (caseTypeName c, (caseVarDecls c).length)) hc
        have h2 := hperm.subset h1
        obtain ⟨r, hr, he⟩ := List.mem_map.mp h2
        have hfst : typeNameOf r = caseTypeName c := congrArg Prod.fst he
        exact hfst ▸ List.mem_map_of_mem typeNameOf hr
      rw [if_pos (hcond_of_names hnames),
          if_pos ((align_iff_maps _ _).mpr (halign_of_perm hperm))]
      rfl
  · intro hnames hnperm
    rw [if_pos (hcond_of_names hnames)]
    by_cases halign :
        ((sortByName typeNameOf (udRecords U)).length
            == (sortByName caseTypeName tcCases).length
          && alignOK (sortByName typeNameOf (udRecords U))
              (sortByName caseTypeName tcCases)) = true
    · exact absurd (hperm_of_align ((align_iff_maps _ _).mp halign)) hnperm
    · rw [if_neg halign]

/-- C3 witness: the Shape union with records RecA and RecB satisfies the
hypotheses, and the clause list naming RecB then RecA with matching
variable counts is accepted. -/
theorem C3_checkTypeCase_exact_match_witness :
    (getUserDefinedTypeByName "Shape" pShape = makeOk shapeUD
      ∧ ((udRecords shapeUD).map typeNameOf).Nodup
      ∧ (∀ r ∈ udRecords shapeUD,
          isFailure (getUserDefinedTypeByName (typeNameOf r) pShape) = true))
    ∧ ((isOk (checkTypeCase "Shape" tcCasesBA pShape) = true ↔
        (tcCasesBA.map (fun c => (caseTypeName c, (caseVarDecls c).length))).Perm
          ((udRecords shapeUD).map (fun r => (typeNameOf r, (recFields r).length))))
      ∧ ((∀ c ∈ tcCasesBA, caseTypeName c ∈ (udRecords shapeUD).map typeNameOf) →
          ¬ (tcCasesBA.map (fun c => (caseTypeName c, (caseVarDecls c).length))).Perm
              ((udRecords shapeUD).map (fun r => (typeNameOf r, (recFields r).length))) →
          checkTypeCase "Shape" tcCasesBA pShape = makeFailure "Invalid type-case")) :=
  ⟨⟨rfl, by decide, by decide⟩,
    C3_checkTypeCase_exact_match pShape shapeUD "Shape" tcCasesBA rfl (by decide) (by decide)⟩

/-- C1: typeofDefine types the value with the defined name pre-bound to the
declared type, but never compares the value's computed type against the
declaration: defining x at declared type boolean with the number literal 5
succeeds with Void even though the value's type is number, not boolean.
This contradicts the typing rule stated in the source's own comment
(if the value types to texp then the define types to void), so the claim is
right and the code drops the required check. -/
theorem C1_typeofDefine_skips_declared_type_check :
    typeofDefine 1 (VarDecl.mk "x" TExp.BoolTExp) (Exp.NumExp 5) TEnv.makeEmptyTEnv
        (Program.mk []) = makeOk TExp.VoidTExp
    ∧ typeofExp 1 (.E (Exp.NumExp 5))
        (TEnv.makeExtendTEnv ["x"] [TExp.BoolTExp] TEnv.makeEmptyTEnv) (Program.mk [])
        = makeOk TExp.NumTExp
    ∧ TExp.NumTExp ≠ TExp.BoolTExp :=
  ⟨rfl, rfl, by decide⟩

/-- C2: the base-case conjunct of checkUserDefinedTypes is dead code on
parsed programs, so the Stream type — every record of which has a field
referencing the enclosing type by name, the claim's (and the spec's
scenario's, and the source comment's) condition for rejection with
Invalid UDT — is accepted.  The conjunct inspects fields with
isUserDefinedTExp, but a parsed type annotation naming a user-defined type
is an unresolved UserDefinedNameTExp, so the filter selects no definition
and the check is vacuously true.  Conjunct one exhibits the acceptance of
Stream; conjunct two, the acceptance of Tree (the base-case-passes part of
the claim, which does hold, though vacuously); conjunct three, that every
record of Stream references the enclosing type by name; conjunct four,
that no field of the program carries a resolved UserDefinedTExp, which is
why the code's test never fires. -/
theorem C2_base_case_check_dead_code :
    checkUserDefinedTypes pStream = makeOk true
    ∧ checkUserDefinedTypes pTree = makeOk true
    ∧ ((udRecords streamUD).all (fun r =>
        (recFields r).any (fun f =>
          isUserDefinedNameTExp f.2 && (typeNameOf f.2 == "Stream")))) = true
    ∧ ((getRecords pStream).all (fun r =>
        (recFields r).all (fun f => !(isUserDefinedTExp f.2)))) = true :=
  ⟨rfl, rfl, rfl, rfl⟩

/-- C4: for a record R that is a case of union U (and not equal to U),
checkEqualType accepts R where U is expected, yielding U, but rejects U
where R is expected. -/
theorem C4_subtype_directional (p : Program) (exp : Exp) (U R : TExp)
    (hR : isRecord R = true) (hU : isUserDefinedTExp U = true)
    (hmem : R ∈ udRecords U) (_hne : R ≠ U) :
    checkEqualType R U exp p = makeOk U ∧ isFailure (checkEqualType U R exp p) = true :=
  checkEqualType_record_of_union p exp U R hR hU hmem

/-- C4 witness: RecA is a case of Shape and not equal to it; the two
directions behave as stated. -/
theorem C4_subtype_directional_witness :
    (isRecord recA = true ∧ isUserDefinedTExp shapeUD = true ∧ recA ∈ udRecords shapeUD
      ∧ recA ≠ shapeUD)
    ∧ (checkEqualType recA shapeUD Exp.LitExp pShape = makeOk shapeUD
      ∧ isFailure (checkEqualType shapeUD recA Exp.LitExp pShape) = true) :=
  ⟨⟨rfl, rfl, by decide, by decide⟩,
    C4_subtype_directional pShape Exp.LitExp shapeUD recA rfl rfl (by decide) (by decide)⟩

/-- C5 counterexample: checkTypeCase does not leave the clause list of the
type-case expression in its original source order: on the Shape program
with clauses listed RecB then RecA, the clause list after the call is
name-sorted (RecA then RecB), because tc.cases.sort sorts the array in
place. -/
theorem C5_clause_list_mutated_counterexample :
    checkTypeCaseCases "Shape" tcCasesBA pShape ≠ tcCasesBA := by
  intro h
  have h2 : (["RecA", "RecB"] : List String) = ["RecB", "RecA"] :=
    congrArg (List.map caseTypeName) h
  exact absurd h2 (by decide)

/-- C5 amended: every checker structure except the type-case clause list is
handled functionally, but checkTypeCase sorts the clause list in place by
record name once validation reaches the alignment phase; the clause list
after the call is therefore either untouched or name-sorted, and in every
case a permutation of the original clauses (same clauses, possibly
reordered, rather than the original source order). -/
theorem C5_clause_list_permuted (tcName : String) (tcCases : List CaseExp) (p : Program) :
    (checkTypeCaseCases tcName tcCases p = tcCases
      ∨ checkTypeCaseCases tcName tcCases p = sortByName caseTypeName tcCases)
    ∧ (checkTypeCaseCases tcName tcCases p).Perm tcCases := by
  rw [checkTypeCaseCases]
  split
  · exact ⟨Or.inr rfl, sortByName_perm caseTypeName tcCases⟩
  · exact ⟨Or.inl rfl, List.Perm.refl _⟩

/-- C6: the top-level entry re-runs the well-formedness checker after
typing, so it fails on every program with ill-formed type definitions,
whatever the typing phase produced (in particular on any program whose
expressions would all type successfully). -/
theorem C6_entry_reruns_wellformedness (fuel : Nat) (p : Program)
    (hbad : isFailure (checkUserDefinedTypes p) = true) :
    isFailure (L51typeofProgram fuel p) = true := by
  rw [L51typeofProgram]
  cases htype : typeofExp fuel (.P p) (initTEnv p) p with
  | Failure m => rfl
  | Ok t =>
    show isFailure (rbind (checkUserDefinedTypes p) _) = true
    cases hcheck : checkUserDefinedTypes p with
    | Ok b =>
      rw [hcheck] at hbad
      exact absurd hbad (by simp [isFailure])
    | Failure m => rfl

/-- C6 witness: the program redeclaring record RR with conflicting field
types fails the consistency conjunct of checkUserDefinedTypes, and the
entry point rejects it. -/
theorem C6_entry_reruns_wellformedness_witness :
    isFailure (checkUserDefinedTypes pRedecl) = true
    ∧ isFailure (L51typeofProgram 3 pRedecl) = true :=
  ⟨rfl, C6_entry_reruns_wellformedness 3 pRedecl rfl⟩

/-- C7: Any absorbs every type: checkEqualType of any t against Any
succeeds with Any, and isSubType of any t against Any is true, for every
expression and program. -/
theorem C7_any_absorbs (t : TExp) (exp : Exp) (p : Program) :
    checkEqualType t TExp.AnyTExp exp p = makeOk TExp.AnyTExp
    ∧ isSubType t TExp.AnyTExp p = true := by
  have hsub : isSubType t TExp.AnyTExp p = true := by simp [isSubType, isAnyTExp]
  refine ⟨?_, hsub⟩
  by_cases h : teBeq t TExp.AnyTExp = true
  · rw [checkEqualType, if_pos h]
  · have hd1 : checkDeepEqualType t TExp.AnyTExp p = false := by
      simp [checkDeepEqualType, isUserDefinedTExp, isRecord]
    have hd2 : checkDeepEqualType TExp.AnyTExp t p = false := by
      simp [checkDeepEqualType, isUserDefinedNameTExp]
    simp [checkEqualType, h, hd1, hd2, hsub]

/-- C8: the cover of a pair of types does not depend on their order: the
two covers contain exactly the same elements. -/
theorem C8_cover_order_independent (a b : TExp) (p : Program) (x : TExp) :
    x ∈ coverTypes [a, b] p ↔ x ∈ coverTypes [b, a] p := by
  have h : ∀ u v : TExp,
      coverTypes [u, v] p = rIntersection (getParentsType u p) (getParentsType v p) :=
    fun u v => rfl
  rw [h a b, h b a, mem_rIntersection, mem_rIntersection]
  tauto

/-- C9: whenever checkEqualType succeeds, the value it returns is exactly
its second argument, in every success branch, including the symmetric
deep-equality branch in which the second argument is the unresolved name
reference and the first the resolved structure. -/
theorem C9_checkEqualType_returns_second (te1 te2 : TExp) (exp : Exp) (p : Program) (r : TExp)
    (h : checkEqualType te1 te2 exp p = makeOk r) : r = te2 := by
  rw [checkEqualType] at h
  split_ifs at h
  · exact (Result.Ok.inj h).symm
  · exact (Result.Ok.inj h).symm
  · exact (Result.Ok.inj h).symm
  · exact (Result.Ok.inj h).symm
  · simp [unparseTExp, unparse, rbind, makeOk, makeFailure] at h

/-- C9 witness: with the Shape program, comparing the structural
UserDefinedTExp value against the bare name reference succeeds through the
symmetric deep-equality branch and returns the name reference, not the
resolved structure. -/
theorem C9_checkEqualType_returns_second_witness :
    checkEqualType shapeUD (TExp.UserDefinedNameTExp "Shape") Exp.LitExp pShape
        = makeOk (TExp.UserDefinedNameTExp "Shape")
    ∧ TExp.UserDefinedNameTExp "Shape" = TExp.UserDefinedNameTExp "Shape" :=
  ⟨rfl,
    C9_checkEqualType_returns_second shapeUD (TExp.UserDefinedNameTExp "Shape") Exp.LitExp
      pShape (TExp.UserDefinedNameTExp "Shape") rfl⟩

/-- C10: typeofSet passes the variable's type first and the value's type
second to checkEqualType, so assigning a value of the union type U to a
variable declared at the record type R succeeds with Void, while assigning
a value of type R to a variable declared at type U fails. -/
theorem C10_typeofSet_direction (fuel : Nat) (varE valE varE2 valE2 : Exp) (tenv : TEnv)
    (p : Program) (U R : TExp)
    (hR : isRecord R = true) (hU : isUserDefinedTExp U = true) (hmem : R ∈ udRecords U)
    (_hne : R ≠ U)
    (h1 : typeofExp fuel (.E varE) tenv p = makeOk R)
    (h2 : typeofExp fuel (.E valE) tenv p = makeOk U)
    (h3 : typeofExp fuel (.E varE2) tenv p = makeOk U)
    (h4 : typeofExp fuel (.E valE2) tenv p = makeOk R) :
    typeofSet fuel varE valE tenv p = makeOk TExp.VoidTExp
    ∧ isFailure (typeofSet fuel varE2 valE2 tenv p) = true := by
  obtain ⟨hok, -⟩ := checkEqualType_record_of_union p (Exp.SetExp varE valE) U R hR hU hmem
  obtain ⟨-, hfail⟩ := checkEqualType_record_of_union p (Exp.SetExp varE2 valE2) U R hR hU hmem
  constructor
  · simp only [typeofSet, typeofSetF, h1, h2, rbind, makeOk, hok, mapv]
  · simp only [typeofSet, typeofSetF, h3, h4, rbind, makeOk, mapv]
    cases hc : checkEqualType U R (Exp.SetExp varE2 valE2) p with
    | Ok v =>
      rw [hc] at hfail
      exact absurd hfail (by simp [isFailure])
    | Failure m => rfl

/-- C10 witness: with x declared at the record type RecA and y at the union
type Shape, setting x to y succeeds with Void while setting y to x fails. -/
theorem C10_typeofSet_direction_witness :
    (isRecord recA = true ∧ isUserDefinedTExp shapeUD = true ∧ recA ∈ udRecords shapeUD
      ∧ recA ≠ shapeUD
      ∧ typeofExp 1 (.E (Exp.VarRef "x")) tenvShape pShape = makeOk recA
      ∧ typeofExp 1 (.E (Exp.VarRef "y")) tenvShape pShape = makeOk shapeUD)
    ∧ (typeofSet 1 (Exp.VarRef "x") (Exp.VarRef "y") tenvShape pShape = makeOk TExp.VoidTExp
      ∧ isFailure (typeofSet 1 (Exp.VarRef "y") (Exp.VarRef "x") tenvShape pShape) = true) :=
  ⟨⟨rfl, rfl, by decide, by decide, rfl, rfl⟩,
    C10_typeofSet_direction 1 (Exp.VarRef "x") (Exp.VarRef "y") (Exp.VarRef "y")
      (Exp.VarRef "x") tenvShape pShape shapeUD recA rfl rfl (by decide) (by decide)
      rfl rfl rfl rfl⟩

end L51
